import Mathlib

/-!
Verification of the nypm package-manager abstraction layer (`src/api.ts`).

The development shallowly embeds the argument-synthesis logic of the five
exported operations (`installDependencies`, `addDependency`,
`addDevDependency`, `removeDependency`, `ensureDependencyInstalled`) as pure
Lean functions.  Subprocess execution is modelled by recording the `Call`
values that would be handed to the command executor; filesystem-dependent
collaborators (package-manager detection, dependency-existence checking) are
parameters of a `World` value so that theorems quantify over every possible
environment.
-/

namespace Nypm

/-- The supported package-manager names (`PackageManagerName` in `types.ts`). -/
inductive PackageManagerName where
  | npm
  | yarn
  | pnpm
  | bun
deriving DecidableEq

/-- Detected package-manager information: name, launch command, major version. -/
structure PackageManagerInfo where
  name : PackageManagerName
  command : String
  majorVersion : String
deriving DecidableEq

/-- Caller-supplied operation options; every field optional (`OperationOptions`
in `types.ts`, plus the install-only `frozenLockFile` field). -/
structure OperationOptions where
  cwd : Option String := none
  silent : Option Bool := none
  packageManager : Option PackageManagerInfo := none
  dev : Option Bool := none
  workspace : Option String := none
  global : Option Bool := none
  frozenLockFile : Option Bool := none
deriving DecidableEq

/-- Fully resolved options: `cwd` and `packageManager` guaranteed present,
boolean flags defaulted. -/
structure ResolvedOperationOptions where
  cwd : String
  silent : Bool
  packageManager : PackageManagerInfo
  dev : Bool
  workspace : Option String
  global : Bool
deriving DecidableEq

/-- Detection failure: no package manager identified and none supplied. -/
structure DetectionError where
  message : String
deriving DecidableEq

/-- One invocation handed to the command executor: binary, ordered argument
list, working directory, and the silent flag. -/
structure Call where
  command : String
  args : List String
  cwd : String
  silent : Bool
deriving DecidableEq

/-- The environment an operation runs in: the process working directory, the
package-manager detector (reads the filesystem), and the dependency-existence
checker.  Both collaborators are arbitrary functions, so theorems hold for
every filesystem state. -/
structure World where
  processCwd : String
  detect : String → Option PackageManagerInfo
  depExists : String → ResolvedOperationOptions → Bool

/-- JavaScript `array.filter(Boolean)` on a string array: keeps exactly the
non-empty strings (the only falsy string is `""`). -/
def filterTruthy (l : List String) : List String :=
  l.filter (fun s => s != "")

/-- Modelled from the spec: `getWorkspaceArgs` lives in `src/_utils`, which is
not part of the provided sources.  Per the spec it produces the
"workspace-selector arguments" for the targeted workspace, and nothing when no
workspace is targeted. -/
def getWorkspaceArgs (o : ResolvedOperationOptions) : List String :=
  match o.workspace with
  | none => []
  | some w =>
    match o.packageManager.name with
    | .yarn => ["workspace", w]
    | .npm => ["-w", w]
    | .pnpm => ["--filter", w]
    | .bun => []

/-- Modelled from the spec: `resolveOperationOptions` lives in `src/_utils`.
Per the spec it merges caller options with detected defaults: an explicit
`packageManager` override takes precedence over filesystem detection, `cwd`
defaults to the process working directory, and detection failure surfaces as a
`DetectionError`. -/
def resolveOperationOptions (w : World) (o : OperationOptions) :
    Except DetectionError ResolvedOperationOptions :=
  let cwd := o.cwd.getD w.processCwd
  match o.packageManager with
  | some pm =>
    .ok { cwd := cwd, silent := o.silent.getD false, packageManager := pm,
          dev := o.dev.getD false, workspace := o.workspace,
          global := o.global.getD false }
  | none =>
    match w.detect cwd with
    | some pm =>
      .ok { cwd := cwd, silent := o.silent.getD false, packageManager := pm,
            dev := o.dev.getD false, workspace := o.workspace,
            global := o.global.getD false }
    | none => .error { message := "No package manager detected" }

/-- View a resolved options object as a caller-options object again (the shape
in which `ensureDependencyInstalled` passes it back into `addDependency`). -/
def toOperationOptions (r : ResolvedOperationOptions) : OperationOptions :=
  { cwd := some r.cwd, silent := some r.silent,
    packageManager := some r.packageManager, dev := some r.dev,
    workspace := r.workspace, global := some r.global, frozenLockFile := none }

/-- The call record for an operation under resolved options. -/
def mkCall (ro : ResolvedOperationOptions) (args : List String) : Call :=
  { command := ro.packageManager.command, args := args, cwd := ro.cwd,
    silent := ro.silent }

/-- The per-manager frozen-install argument table of `installDependencies`
(`pmToInstallCommandMap` in `api.ts`). -/
def pmToInstallCommandMap (pm : PackageManagerName) : List String :=
  match pm with
  | .npm => ["ci"]
  | .yarn => ["install", "--immutable"]
  | .bun => ["install", "--frozen-lockfile"]
  | .pnpm => ["install", "--frozen-lockfile"]

/-- The argument list built by `installDependencies`: the frozen table when
`frozenLockFile` is truthy, plain `install` otherwise. -/
def installCommandArgs (frozenLockFile : Bool) (pm : PackageManagerName) :
    List String :=
  if frozenLockFile then pmToInstallCommandMap pm else ["install"]

/-- `installDependencies` from `api.ts`: resolve options, build the argument
list, invoke the executor once. -/
def installDependencies (w : World) (o : OperationOptions) :
    Except DetectionError (List Call) :=
  match resolveOperationOptions w o with
  | .error e => .error e
  | .ok ro =>
    .ok [mkCall ro
      (installCommandArgs (o.frozenLockFile.getD false) ro.packageManager.name)]

/-- `addDependency` accepts a single name or a list of names
(`Array.isArray(name) ? name : [name]`). -/
def namesOf (name : String ⊕ List String) : List String :=
  match name with
  | .inl s => [s]
  | .inr l => l

/-- The argument list built by `addDependency` (`api.ts` lines 62-82): yarn
path prepends workspace args and a legacy `global` token (yarn major version
"1" only); non-yarn path uses `install` for npm else `add`, then workspace
args, `-D`, `-g`; names come last; empty strings are filtered out. -/
def addDependencyArgs (ro : ResolvedOperationOptions) (names : List String) :
    List String :=
  filterTruthy
    (if ro.packageManager.name = .yarn then
      getWorkspaceArgs ro ++
        [if ro.global ∧ ro.packageManager.majorVersion = "1" then "global"
         else "",
         "add",
         if ro.dev then "-D" else ""] ++ names
    else
      [if ro.packageManager.name = .npm then "install" else "add"] ++
        getWorkspaceArgs ro ++
        [if ro.dev then "-D" else "", if ro.global then "-g" else ""] ++ names)

/-- `addDependency` from `api.ts`: resolve options, synthesize arguments,
invoke the executor once. -/
def addDependency (w : World) (name : String ⊕ List String)
    (o : OperationOptions) : Except DetectionError (List Call) :=
  match resolveOperationOptions w o with
  | .error e => .error e
  | .ok ro => .ok [mkCall ro (addDependencyArgs ro (namesOf name))]

/-- `addDevDependency` from `api.ts`: delegates to `addDependency` with
`dev: true` spread over the options. -/
def addDevDependency (w : World) (name : String ⊕ List String)
    (o : OperationOptions) : Except DetectionError (List Call) :=
  addDependency w name { o with dev := some true }

/-- The flag-and-subcommand tokens of `removeDependency`, i.e. everything it
synthesizes apart from the final dependency name. -/
def removeDependencyFlagTokens (ro : ResolvedOperationOptions) : List String :=
  filterTruthy
    (if ro.packageManager.name = .yarn then
      [if ro.global ∧ ro.packageManager.majorVersion = "1" then "global"
       else ""] ++
        getWorkspaceArgs ro ++
        ["remove", if ro.dev then "-D" else "", if ro.global then "-g" else ""]
    else
      [if ro.packageManager.name = .npm then "uninstall" else "remove"] ++
        getWorkspaceArgs ro ++
        [if ro.dev then "-D" else "", if ro.global then "-g" else ""])

/-- The argument list built by `removeDependency` (`api.ts` lines 127-150):
yarn path puts the legacy `global` token first, then workspace args, `remove`,
flags, name; non-yarn path uses `uninstall` for npm else `remove`; empty
strings are filtered out. -/
def removeDependencyArgs (ro : ResolvedOperationOptions) (name : String) :
    List String :=
  filterTruthy
    ((if ro.packageManager.name = .yarn then
      [if ro.global ∧ ro.packageManager.majorVersion = "1" then "global"
       else ""] ++
        getWorkspaceArgs ro ++
        ["remove", if ro.dev then "-D" else "", if ro.global then "-g" else ""]
    else
      [if ro.packageManager.name = .npm then "uninstall" else "remove"] ++
        getWorkspaceArgs ro ++
        [if ro.dev then "-D" else "",
         if ro.global then "-g" else ""]) ++ [name])

/-- `removeDependency` from `api.ts`: resolve options, synthesize arguments,
invoke the executor once. -/
def removeDependency (w : World) (name : String) (o : OperationOptions) :
    Except DetectionError (List Call) :=
  match resolveOperationOptions w o with
  | .error e => .error e
  | .ok ro => .ok [mkCall ro (removeDependencyArgs ro name)]

/-- `ensureDependencyInstalled` from `api.ts`: resolve options, consult the
dependency-existence checker; when the dependency exists return `true` with no
executor call, otherwise delegate to `addDependency` with the resolved
options (the TS function then returns `undefined`, modelled as `none`). -/
def ensureDependencyInstalled (w : World) (name : String)
    (o : OperationOptions) :
    Except DetectionError (List Call × Option Bool) :=
  match resolveOperationOptions w o with
  | .error e => .error e
  | .ok ro =>
    if w.depExists name ro then
      .ok ([], some true)
    else
      match addDependency w (Sum.inl name) (toOperationOptions ro) with
      | .error e => .error e
      | .ok calls => .ok (calls, none)

/-! ### Helper lemmas -/

theorem filterTruthy_append (a b : List String) :
    filterTruthy (a ++ b) = filterTruthy a ++ filterTruthy b :=
  List.filter_append a b

theorem filterTruthy_cons_of_ne (s : String) (l : List String) (h : s ≠ "") :
    filterTruthy (s :: l) = s :: filterTruthy l := by
  simp [filterTruthy, List.filter_cons, h]

theorem filterTruthy_cons_empty (l : List String) :
    filterTruthy ("" :: l) = filterTruthy l := by
  simp [filterTruthy, List.filter_cons]

theorem not_mem_filterTruthy (l : List String) : "" ∉ filterTruthy l := by
  simp [filterTruthy, List.mem_filter]

theorem filterTruthy_eq_self (l : List String) (h : "" ∉ l) :
    filterTruthy l = l := by
  rw [filterTruthy, List.filter_eq_self]
  intro a ha
  simp only [bne_iff_ne, ne_eq]
  rintro rfl
  exact h ha

theorem resolve_toOperationOptions (w : World) (r : ResolvedOperationOptions) :
    resolveOperationOptions w (toOperationOptions r) = .ok r := rfl

/-! ### Concrete environments used by witnesses -/

/-- A detected npm installation. -/
def npmInfo : PackageManagerInfo :=
  { name := .npm, command := "npm", majorVersion := "10" }

/-- A world in which detection finds nothing and no dependency exists. -/
def w0 : World :=
  { processCwd := "/", detect := fun _ => none, depExists := fun _ _ => false }

/-- Options forcing npm via the explicit override. -/
def o1 : OperationOptions := { packageManager := some npmInfo }

/-- The resolution of `o1` in `w0`. -/
def ro1 : ResolvedOperationOptions :=
  { cwd := "/", silent := false, packageManager := npmInfo, dev := false,
    workspace := none, global := false }

/-! ### Claims -/

/-- C1: `installDependencies` builds `["ci"]` for npm,
`["install", "--immutable"]` for yarn and `["install", "--frozen-lockfile"]`
for pnpm and bun when `frozenLockFile` is true, exactly `["install"]` when it
is absent or false, and passes that list to the command executor with the
resolved package manager's command. -/
theorem installDependencies_frozen_table (w : World) (o : OperationOptions)
    (ro : ResolvedOperationOptions)
    (h : resolveOperationOptions w o = .ok ro) :
    installDependencies w o =
      .ok [mkCall ro
        (installCommandArgs (o.frozenLockFile.getD false)
          ro.packageManager.name)] ∧
    installCommandArgs true .npm = ["ci"] ∧
    installCommandArgs true .yarn = ["install", "--immutable"] ∧
    installCommandArgs true .pnpm = ["install", "--frozen-lockfile"] ∧
    installCommandArgs true .bun = ["install", "--frozen-lockfile"] ∧
    ((o.frozenLockFile = none ∨ o.frozenLockFile = some false) →
      installDependencies w o = .ok [mkCall ro ["install"]]) := by
  refine ⟨?_, rfl, rfl, rfl, rfl, ?_⟩
  · simp only [installDependencies, h]
  · intro hf
    simp only [installDependencies, h]
    rcases hf with hf | hf <;> rw [hf] <;> rfl

/-- Witness for C1 at a concrete npm project with `frozenLockFile` absent. -/
theorem installDependencies_frozen_table_witness :
    installDependencies w0 o1 = .ok [mkCall ro1 ["install"]] :=
  (installDependencies_frozen_table w0 o1 ro1 rfl).2.2.2.2.2 (Or.inl rfl)

/-- A detected yarn 1 installation. -/
def yarn1Info : PackageManagerInfo :=
  { name := .yarn, command := "yarn", majorVersion := "1" }

/-- Resolved options for a yarn 1 project with global mode requested. -/
def yarnGlobalRo : ResolvedOperationOptions :=
  { cwd := "/", silent := false, packageManager := yarn1Info, dev := false,
    workspace := none, global := true }

/-- C2: when the resolved package manager is yarn with major version "1" and
`global` is true, the synthesized argument list contains the `global` token
immediately before `add`; for any other yarn major version the list is equal
to a form that never mentions a `global` token, whatever the value of the
`global` option. -/
theorem addDependency_yarn_global_token (ro : ResolvedOperationOptions)
    (names : List String) (hy : ro.packageManager.name = .yarn) :
    (ro.global = true → ro.packageManager.majorVersion = "1" →
      addDependencyArgs ro names =
        filterTruthy (getWorkspaceArgs ro) ++
          "global" :: "add" ::
            filterTruthy ((if ro.dev then "-D" else "") :: names)) ∧
    (ro.packageManager.majorVersion ≠ "1" →
      addDependencyArgs ro names =
        filterTruthy (getWorkspaceArgs ro) ++
          "add" :: filterTruthy ((if ro.dev then "-D" else "") :: names)) := by
  constructor
  · intro hg hv
    have h1 : addDependencyArgs ro names =
        filterTruthy (getWorkspaceArgs ro ++
          ("global" :: "add" :: ((if ro.dev then "-D" else "") :: names))) := by
      simp [addDependencyArgs, hy, hg, hv]
    rw [h1, filterTruthy_append,
      filterTruthy_cons_of_ne _ _ (by decide),
      filterTruthy_cons_of_ne _ _ (by decide)]
  · intro hv
    have h1 : addDependencyArgs ro names =
        filterTruthy (getWorkspaceArgs ro ++
          ("" :: "add" :: ((if ro.dev then "-D" else "") :: names))) := by
      simp [addDependencyArgs, hy, hv]
    rw [h1, filterTruthy_append, filterTruthy_cons_empty,
      filterTruthy_cons_of_ne _ _ (by decide)]

/-- Witness for C2 at a yarn 1 project in global mode. -/
theorem addDependency_yarn_global_token_witness :
    addDependencyArgs yarnGlobalRo ["foo"] =
      filterTruthy (getWorkspaceArgs yarnGlobalRo) ++
        "global" :: "add" ::
          filterTruthy ((if yarnGlobalRo.dev then "-D" else "") :: ["foo"]) :=
  (addDependency_yarn_global_token yarnGlobalRo ["foo"] rfl).1 rfl rfl

/-- C4: with default options (no dev, global, or workspace flags) and a
non-empty name, `removeDependency` synthesizes exactly `["uninstall", name]`
for npm and exactly `["remove", name]` for yarn, pnpm and bun, appending
exactly the one dependency name. -/
theorem removeDependency_default_args (ro : ResolvedOperationOptions)
    (name : String) (hdev : ro.dev = false) (hg : ro.global = false)
    (hw : ro.workspace = none) (hn : name ≠ "") :
    removeDependencyArgs ro name =
      if ro.packageManager.name = .npm then ["uninstall", name]
      else ["remove", name] := by
  cases hpm : ro.packageManager.name <;>
    simp [removeDependencyArgs, getWorkspaceArgs, hpm, hdev, hg, hw,
      filterTruthy, hn]

/-- Witness for C4: removing `foo` under default npm options. -/
theorem removeDependency_default_args_witness :
    removeDependencyArgs ro1 "foo" =
      if ro1.packageManager.name = .npm then ["uninstall", "foo"]
      else ["remove", "foo"] :=
  removeDependency_default_args ro1 "foo" rfl rfl rfl (by decide)

/-- C5: with `dev` set and no workspace or global flags,
`addDependency "foo"` synthesizes `["install", "-D", "foo"]` for npm and
`["add", "-D", "foo"]` for pnpm and bun, each ending in `-D foo`. -/
theorem addDependency_dev_flag (ro : ResolvedOperationOptions)
    (hdev : ro.dev = true) (hg : ro.global = false) (hw : ro.workspace = none) :
    (ro.packageManager.name = .npm →
      addDependencyArgs ro ["foo"] = ["install", "-D", "foo"]) ∧
    (ro.packageManager.name = .pnpm →
      addDependencyArgs ro ["foo"] = ["add", "-D", "foo"]) ∧
    (ro.packageManager.name = .bun →
      addDependencyArgs ro ["foo"] = ["add", "-D", "foo"]) := by
  refine ⟨?_, ?_, ?_⟩ <;> intro hpm <;>
    simp [addDependencyArgs, getWorkspaceArgs, hpm, hdev, hg, hw, filterTruthy]

/-- Resolved options for an npm project with `dev` requested. -/
def npmDevRo : ResolvedOperationOptions :=
  { cwd := "/", silent := false, packageManager := npmInfo, dev := true,
    workspace := none, global := false }

/-- Witness for C5 at a concrete npm project with `dev` set. -/
theorem addDependency_dev_flag_witness :
    addDependencyArgs npmDevRo ["foo"] = ["install", "-D", "foo"] :=
  (addDependency_dev_flag npmDevRo rfl rfl rfl).1 rfl

/-- C7: for every combination of resolved options and names, the final
argument lists of `addDependency` and `removeDependency` contain no
empty-string token: every `""` produced by the conditional branches is
filtered out before invocation. -/
theorem synthesized_args_no_empty_token (ro : ResolvedOperationOptions)
    (names : List String) (name : String) :
    "" ∉ addDependencyArgs ro names ∧ "" ∉ removeDependencyArgs ro name :=
  ⟨not_mem_filterTruthy _, not_mem_filterTruthy _⟩

/-- C8: the options resolver is idempotent: resolving an already-resolved
options object yields it unchanged, in every world (so no re-detection is
performed and no field changes), which is the shape in which
`ensureDependencyInstalled` hands resolved options to `addDependency`. -/
theorem resolveOperationOptions_idempotent (w : World)
    (r : ResolvedOperationOptions) :
    resolveOperationOptions w (toOperationOptions r) = .ok r :=
  resolve_toOperationOptions w r

/-- C3: when the dependency-existence checker reports the dependency present,
`ensureDependencyInstalled` makes no executor call and returns `true`; when it
reports it absent, it delegates to `addDependency` with the resolved options,
producing exactly the call `addDependency` makes for that name under those
options (inheriting the resolved dev and workspace settings). -/
theorem ensureDependencyInstalled_noop_or_delegate (w : World) (name : String)
    (o : OperationOptions) (ro : ResolvedOperationOptions)
    (h : resolveOperationOptions w o = .ok ro) :
    (w.depExists name ro = true →
      ensureDependencyInstalled w name o = .ok ([], some true)) ∧
    (w.depExists name ro = false →
      addDependency w (Sum.inl name) (toOperationOptions ro) =
        .ok [mkCall ro (addDependencyArgs ro [name])] ∧
      ensureDependencyInstalled w name o =
        .ok ([mkCall ro (addDependencyArgs ro [name])], none)) := by
  have hadd : addDependency w (Sum.inl name) (toOperationOptions ro) =
      .ok [mkCall ro (addDependencyArgs ro [name])] := rfl
  constructor
  · intro hex
    simp only [ensureDependencyInstalled, h, hex, if_true]
  · intro hex
    refine ⟨hadd, ?_⟩
    simp only [ensureDependencyInstalled, h, hex, hadd, Bool.false_eq_true,
      if_false]

/-- Witness for C3: in a world where no dependency exists, the npm project
delegates to `addDependency`. -/
theorem ensureDependencyInstalled_noop_or_delegate_witness :
    addDependency w0 (Sum.inl "foo") (toOperationOptions ro1) =
      .ok [mkCall ro1 (addDependencyArgs ro1 ["foo"])] ∧
    ensureDependencyInstalled w0 "foo" o1 =
      .ok ([mkCall ro1 (addDependencyArgs ro1 ["foo"])], none) :=
  (ensureDependencyInstalled_noop_or_delegate w0 "foo" o1 ro1 rfl).2 rfl

/-- A detected pnpm installation, as produced for a project whose only
lockfile is `pnpm-lock.yaml`. -/
def pnpmInfo : PackageManagerInfo :=
  { name := .pnpm, command := "pnpm", majorVersion := "8" }

/-- A world whose detector finds pnpm. -/
def pnpmWorld : World :=
  { processCwd := "/proj", detect := fun _ => some pnpmInfo,
    depExists := fun _ _ => false }

/-- C6: `addDevDependency` behaves identically to `addDependency` with `dev`
set to true, and on a detected pnpm project `addDevDependency "left-pad"`
invokes pnpm with exactly `["add", "-D", "left-pad"]`. -/
theorem addDevDependency_is_dev_addDependency :
    (∀ (w : World) (name : String ⊕ List String) (o : OperationOptions),
      addDevDependency w name o =
        addDependency w name { o with dev := some true }) ∧
    addDevDependency pnpmWorld (Sum.inl "left-pad") {} =
      .ok [{ command := "pnpm", args := ["add", "-D", "left-pad"],
             cwd := "/proj", silent := false }] := by
  refine ⟨fun w name o => rfl, ?_⟩
  rfl

/-- Appending only well-formed (non-empty) names commutes with the
empty-token filter. -/
theorem filterTruthy_append_names (A names : List String) (h : "" ∉ names) :
    filterTruthy (A ++ names) = filterTruthy (A ++ []) ++ names := by
  rw [List.append_nil, filterTruthy_append, filterTruthy_eq_self names h]

/-- C9: `addDependency` treats a single name exactly as the singleton list of
that name, and for every list of non-empty names the synthesized argument
list is the flag prefix (the list synthesized for no names) followed by the
names in their given order. -/
theorem addDependency_single_vs_list_and_order :
    (∀ (w : World) (o : OperationOptions) (n : String),
      addDependency w (Sum.inl n) o = addDependency w (Sum.inr [n]) o) ∧
    (∀ (ro : ResolvedOperationOptions) (names : List String), "" ∉ names →
      addDependencyArgs ro names = addDependencyArgs ro [] ++ names) := by
  refine ⟨fun w o n => rfl, fun ro names hns => ?_⟩
  simp only [addDependencyArgs]
  by_cases hy : ro.packageManager.name = .yarn
  · rw [if_pos hy, if_pos hy, filterTruthy_append_names _ _ hns]
  · rw [if_neg hy, if_neg hy, filterTruthy_append_names _ _ hns]

/-- Witness for C9: singleton equivalence and name ordering at concrete
inputs. -/
theorem addDependency_single_vs_list_and_order_witness :
    addDependency w0 (Sum.inl "foo") o1 =
      addDependency w0 (Sum.inr ["foo"]) o1 ∧
    addDependencyArgs ro1 ["a", "b"] = addDependencyArgs ro1 [] ++ ["a", "b"] :=
  ⟨addDependency_single_vs_list_and_order.1 w0 o1 "foo",
    addDependency_single_vs_list_and_order.2 ro1 ["a", "b"] (by decide)⟩

/-- A trailing empty token is removed by the empty-token filter. -/
theorem filterTruthy_append_empty (A : List String) :
    filterTruthy (A ++ [""]) = filterTruthy A := by
  rw [filterTruthy_append, show filterTruthy [""] = [] from rfl,
    List.append_nil]

/-- C10: the empty-token filter also removes a user-supplied empty dependency
name: `addDependency ""` and `removeDependency ""` still invoke the executor,
but with an argument list containing no dependency name; under default npm
options `addDependency ""` invokes npm with exactly `["install"]`. -/
theorem empty_name_is_filtered (w : World) (o : OperationOptions)
    (ro : ResolvedOperationOptions)
    (h : resolveOperationOptions w o = .ok ro) :
    addDependency w (Sum.inl "") o =
      .ok [mkCall ro (addDependencyArgs ro [])] ∧
    removeDependency w "" o =
      .ok [mkCall ro (removeDependencyFlagTokens ro)] ∧
    (ro.packageManager.name = .npm → ro.workspace = none → ro.dev = false →
      ro.global = false → addDependencyArgs ro [""] = ["install"]) := by
  have ha : addDependencyArgs ro [""] = addDependencyArgs ro [] := by
    simp only [addDependencyArgs]
    by_cases hy : ro.packageManager.name = .yarn
    · rw [if_pos hy, if_pos hy, filterTruthy_append_empty, List.append_nil]
    · rw [if_neg hy, if_neg hy, filterTruthy_append_empty, List.append_nil]
  have hr : removeDependencyArgs ro "" = removeDependencyFlagTokens ro := by
    simp only [removeDependencyArgs, removeDependencyFlagTokens]
    exact filterTruthy_append_empty _
  refine ⟨?_, ?_, ?_⟩
  · simp only [addDependency, h, namesOf, ha]
  · simp only [removeDependency, h, hr]
  · intro hpm hw hdev hg
    simp [addDependencyArgs, getWorkspaceArgs, hpm, hw, hdev, hg, filterTruthy]

/-- Witness for C10: adding the empty name under default npm options invokes
npm with exactly `["install"]`. -/
theorem empty_name_is_filtered_witness :
    addDependencyArgs ro1 [""] = ["install"] :=
  (empty_name_is_filtered w0 o1 ro1 rfl).2.2 rfl rfl rfl rfl

end Nypm
